import Mathlib

/-!
Formal model of the pricing-dashboard pipeline (`src/pricing_analysis.py`).

Numeric cells are modelled as exact rationals (`ℚ`); a cell whose numeric
coercion fails (`pd.to_numeric` with coerce semantics) is modelled as `none`.
Quantiles use the linear-interpolation method (pandas default), `groupby`
sorts its keys ascending (pandas `sort=True` default), and ranking sorts the
grouped table stably (`List.insertionSort` is stable).
-/

/-- A raw input row after schema normalisation and numeric coercion
(`pd.to_numeric` with coerce semantics on `单价` and `销量(吨)`):
a failed coercion is `none`. -/
structure RawRecord where
  partner : String
  price : Option ℚ
  qty : Option ℚ
deriving DecidableEq, Repr

/-- A surviving cleaned row of the working table: columns
`国家`, `单价`, `销量(吨)`, `总销售额`. -/
structure Row where
  partner : String
  price : ℚ
  qty : ℚ
  revenue : ℚ
deriving DecidableEq, Repr

/-- Record cleaning, steps E–F of `load_and_process` (source lines 58–67):
drop rows where coercion of `单价` or `销量(吨)` failed (`dropna`), keep rows
with `单价 > 0`, and derive `总销售额 = 单价 * 销量(吨)`.  Note the source
filters only on `单价 > 0`; there is no filter on `销量(吨)`. -/
def cleanRow (r : RawRecord) : Option Row :=
  match r.price, r.qty with
  | some p, some q => if 0 < p then some ⟨r.partner, p, q, p * q⟩ else none
  | _, _ => none

/-- The cleaner applied to the whole table (order preserving). -/
def clean (rs : List RawRecord) : List Row :=
  rs.filterMap cleanRow

/-- Price alias set of the schema normalizer (source line 44). -/
def priceAliases : List String := ["单价/每吨", "价格/每吨", "单价", "Price", "Unit Price"]

/-- Quantity alias set of the schema normalizer (source line 46). -/
def qtyAliases : List String := ["第二数量", "数量", "Qty", "Quantity", "Sales Qty"]

/-- Partner alias set of the schema normalizer (source line 48). -/
def partnerAliases : List String := ["贸易伙伴名称", "国家", "Country", "Partner"]

/-- Whitespace stripping of a column name (`df.columns.str.strip()`,
source line 39). -/
def stripName (s : String) : String :=
  ⟨((s.data.dropWhile Char.isWhitespace).reverse.dropWhile Char.isWhitespace).reverse⟩

/-- Schema normalisation of one column name, source lines 39–51: strip
whitespace, then exact, case-sensitive membership tests against the three
alias sets in source order; an unmatched column keeps its stripped name. -/
def normalizeCol (c : String) : String :=
  if stripName c ∈ priceAliases then "单价"
  else if stripName c ∈ qtyAliases then "销量(吨)"
  else if stripName c ∈ partnerAliases then "国家"
  else stripName c

/-- Linear interpolation on an ascending list of order statistics at a
(nonnegative) fractional position `pos`: walk `⌊pos⌋` steps into the list and
interpolate between the two neighbouring entries with the remaining
fraction.  This is the linear-interpolation quantile kernel of pandas; the
empty list (where pandas yields NaN) returns the junk value `0`, and every
use below either filters an empty list — where any bound gives the same
empty result — or is guarded by nonemptiness. -/
def interpAt : List ℚ → ℚ → ℚ
  | [], _ => 0
  | [a], _ => a
  | a :: b :: s, pos => if pos < 1 then a + pos * (b - a) else interpAt (b :: s) (pos - 1)

/-- Quantile `q` of the values `l` by linear interpolation
(pandas `Series.quantile(q)`): position `q * (n - 1)` in the sorted values. -/
def quantileD (q : ℚ) (l : List ℚ) : ℚ :=
  interpAt (List.insertionSort (fun a b => a ≤ b) l) (q * ((l.length : ℚ) - 1))

/-- First quartile `Q1` of the unit prices of the working set (source line 87). -/
def q1ws (ws : List Row) : ℚ := quantileD (1/4) (ws.map (·.price))

/-- Third quartile `Q3` of the unit prices of the working set (source line 88). -/
def q3ws (ws : List Row) : ℚ := quantileD (3/4) (ws.map (·.price))

/-- Lower IQR bound `Q1 - 1.5*IQR` (source line 90). -/
def lowerB (ws : List Row) : ℚ := q1ws ws - 3/2 * (q3ws ws - q1ws ws)

/-- Upper IQR bound `Q3 + 1.5*IQR` (source line 90). -/
def upperB (ws : List Row) : ℚ := q3ws ws + 3/2 * (q3ws ws - q1ws ws)

/-- The IQR outlier filter (source lines 86–90): keep rows whose `单价` lies
within `[Q1 - 1.5*IQR, Q3 + 1.5*IQR]`, bounds computed from the input set. -/
def iqrFilter (ws : List Row) : List Row :=
  ws.filter (fun r => decide (lowerB ws ≤ r.price ∧ r.price ≤ upperB ws))

/-- Total `总销售额` of one partner over the given working set
(the groupby sum of `总销售额` per `国家`, source line 93). -/
def partnerRevenue (ws : List Row) (p : String) : ℚ :=
  ((ws.filter (fun r => decide (r.partner = p))).map (·.revenue)).sum

/-- The revenue-threshold filter (source lines 93–102): keep rows whose
summed revenue of the partner of the row, over the input set, reaches the threshold. -/
def revenueFilter (t : ℚ) (ws : List Row) : List Row :=
  ws.filter (fun r => decide (t ≤ partnerRevenue ws r.partner))

/-- The partner allow-list filter (source lines 106–108): an empty selection
means no restriction. -/
def partnerSelect (sel : List String) (ws : List Row) : List Row :=
  if sel.isEmpty then ws else ws.filter (fun r => decide (r.partner ∈ sel))

/-- The filtering pipeline of the main script (source lines 74–108): clean,
optional IQR filter, revenue threshold, optional partner selection. -/
def pipeline (useIqr : Bool) (t : ℚ) (sel : List String) (raw : List RawRecord) : List Row :=
  partnerSelect sel (revenueFilter t (if useIqr then iqrFilter (clean raw) else clean raw))

/-- One row of the aggregate table `country_stats` (source lines 128–133). -/
structure PartnerAgg where
  partner : String
  median_price : ℚ
  total_quantity : ℚ
  total_revenue : ℚ
  order_count : ℕ
deriving DecidableEq, Repr

/-- The distinct group keys of the groupby on `国家`, sorted ascending
(pandas sorts the group keys by default). -/
def groupKeys (ws : List Row) : List String :=
  List.insertionSort (fun a b => a ≤ b) (ws.map (·.partner)).dedup

/-- The aggregate of one partner: median `单价`, summed `销量(吨)`, summed
`总销售额`, row count (source lines 128–133). -/
def aggRow (ws : List Row) (p : String) : PartnerAgg :=
  { partner := p
    median_price := quantileD (1/2) ((ws.filter (fun r => decide (r.partner = p))).map (·.price))
    total_quantity := ((ws.filter (fun r => decide (r.partner = p))).map (·.qty)).sum
    total_revenue := ((ws.filter (fun r => decide (r.partner = p))).map (·.revenue)).sum
    order_count := (ws.filter (fun r => decide (r.partner = p))).length }

/-- The aggregate table `country_stats` (source lines 128–133): one row per
distinct partner, in groupby key order. -/
def country_stats (ws : List Row) : List PartnerAgg :=
  (groupKeys ws).map (aggRow ws)

/-- The three market tiers: `高价蓝海` (High), `低价红海` (Low),
`主流市场` (Mainstream). -/
inductive Tier
  | High
  | Low
  | Mainstream
deriving DecidableEq, Repr

/-- The tier classifier `classify_market` (source lines 139–142): High is
checked first, then Low, then the Mainstream default. -/
def classify_market (p25 p75 price : ℚ) : Tier :=
  if price ≥ p75 then Tier.High
  else if price ≤ p25 then Tier.Low
  else Tier.Mainstream

/-- Global `p25` over the final working set (source line 136). -/
def p25ws (ws : List Row) : ℚ := quantileD (1/4) (ws.map (·.price))

/-- Global `p75` over the final working set (source line 137). -/
def p75ws (ws : List Row) : ℚ := quantileD (3/4) (ws.map (·.price))

/-- The aggregate table with the `市场类型` column attached (source line 144):
each partner aggregate is labelled by `classify_market` applied to its median
price against the global quantiles of the working set. -/
def marketTiers (ws : List Row) : List (PartnerAgg × Tier) :=
  (country_stats ws).map (fun a => (a, classify_market (p25ws ws) (p75ws ws) a.median_price))

/-- Total revenue: the sum of `总销售额` over the rows (source line 147). -/
def totalRev (ws : List Row) : ℚ := (ws.map (·.revenue)).sum

/-- Total volume: the sum of `销量(吨)` over the rows (source line 148). -/
def totalVol (ws : List Row) : ℚ := (ws.map (·.qty)).sum

/-- The guarded weighted average price
`total_rev / total_vol if total_vol > 0 else 0` (source line 149). -/
def avg_price_weighted (ws : List Row) : ℚ :=
  if 0 < totalVol ws then totalRev ws / totalVol ws else 0

/-- Stable descending sort of the aggregate table by `单价`
(the `sort_values` call on the aggregate table, descending by `单价`, source line 258). -/
def sortDesc (stats : List PartnerAgg) : List PartnerAgg :=
  List.insertionSort (fun a b => b.median_price ≤ a.median_price) stats

/-- The top-N ranking `.head(n)` over the descending sort (source line 258,
with n = 10 in the source). -/
def top_df (n : ℕ) (ws : List Row) : List PartnerAgg :=
  (sortDesc (country_stats ws)).take n

/-- The computation stages of the dashboard body after filtering, in source
line order: aggregation (line 128), global quantiles (lines 136–137), tier
classification (line 144), weighted average (lines 147–149), the emptiness
check with its warning and `st.stop()` (lines 156–158), then the statistic
panels (lines 160–207), the charts (lines 215–305) and the download table
(lines 311–318). -/
inductive Stage
  | aggregate
  | quantiles
  | classifyTiers
  | weightedAvg
  | emptyCheck
  | panels
  | charts
  | download
deriving DecidableEq, Repr

/-- The straight-line execution trace of the dashboard body on a given
working set, in source order: aggregation, quantiles, classification and the
weighted average all run unconditionally; the emptiness check runs after
them, and only a nonempty working set reaches the panels, charts and
download stages (`st.stop()` ends the run otherwise). -/
def dashboardTrace (ws : List Row) : List Stage :=
  [Stage.aggregate, Stage.quantiles, Stage.classifyTiers, Stage.weightedAvg, Stage.emptyCheck]
    ++ (if ws.length = 0 then [] else [Stage.panels, Stage.charts, Stage.download])

/-- A record accepted by the cleaner has a positive price: the cleaner
keeps exactly the rows with both coercions successful and `单价 > 0`. -/
theorem cleanRow_price_pos {a : RawRecord} {r : Row} (h : cleanRow a = some r) :
    0 < r.price := by
  rcases a with ⟨pa, op, oq⟩
  cases op with
  | none => simp [cleanRow] at h
  | some p =>
    cases oq with
    | none => simp [cleanRow] at h
    | some q =>
      by_cases hp : 0 < p
      · have hr : r = ⟨pa, p, q, p * q⟩ := by
          have hs := h
          simp [cleanRow, hp] at hs
          exact hs.symm
        rw [hr]
        exact hp
      · simp [cleanRow, hp] at h

/-- Every record in the cleaned table has a positive price. -/
theorem mem_clean_price_pos {raw : List RawRecord} {r : Row} (h : r ∈ clean raw) :
    0 < r.price := by
  rcases List.mem_filterMap.mp h with ⟨a, _, ha⟩
  exact cleanRow_price_pos ha

/-- The IQR filter only removes rows. -/
theorem mem_of_mem_iqrFilter {ws : List Row} {r : Row} (h : r ∈ iqrFilter ws) : r ∈ ws :=
  (List.mem_filter.mp h).1

/-- The revenue-threshold filter only removes rows. -/
theorem mem_of_mem_revenueFilter {t : ℚ} {ws : List Row} {r : Row}
    (h : r ∈ revenueFilter t ws) : r ∈ ws :=
  (List.mem_filter.mp h).1

/-- The partner allow-list filter only removes rows. -/
theorem mem_of_mem_partnerSelect {sel : List String} {ws : List Row} {r : Row}
    (h : r ∈ partnerSelect sel ws) : r ∈ ws := by
  by_cases hs : sel.isEmpty <;> simp [partnerSelect, hs] at h
  · exact h
  · exact h.1

/-- C2 (counterexample): the cleaner does not drop rows with non-positive
quantity.  The input row with price 5 and quantity 0 survives the cleaner,
and its quantity is not positive, so the claimed invariant
`quantity > 0 for every surviving CleanRecord` is false on the code. -/
theorem c2_counterexample :
    clean [⟨"A", some 5, some 0⟩] = [⟨"A", 5, 0, 0⟩] ∧
    ¬ 0 < (Row.mk "A" 5 0 0).qty := by
  constructor
  · norm_num [clean, cleanRow, List.filterMap_cons, List.filterMap_nil]
  · norm_num

/-- C2 (amended): every record surviving the cleaner — and hence every
record in every downstream working set of the pipeline — has `unit_price > 0`;
the cleaner drops rows with non-positive unit price, but places no
constraint on the quantity, which may be zero or negative. -/
theorem c2_amended (u : Bool) (t : ℚ) (sel : List String) (raw : List RawRecord) (r : Row)
    (h : r ∈ pipeline u t sel raw) : 0 < r.price := by
  have h2 : r ∈ (if u then iqrFilter (clean raw) else clean raw) :=
    mem_of_mem_revenueFilter (mem_of_mem_partnerSelect h)
  cases u with
  | false => exact mem_clean_price_pos (by simpa using h2)
  | true => exact mem_clean_price_pos (mem_of_mem_iqrFilter (by simpa using h2))

/-- C2 (witness): a concrete run of the full pipeline, with the IQR filter
enabled, on which the amended positivity invariant is instantiated. -/
theorem c2_witness :
    (Row.mk "A" 5 2 10) ∈ pipeline true 0 [] [⟨"A", some 5, some 2⟩] ∧
    0 < (Row.mk "A" 5 2 10).price := by
  have hm : (Row.mk "A" 5 2 10) ∈ pipeline true 0 [] [⟨"A", some 5, some 2⟩] := by
    have hp : pipeline true 0 [] [⟨"A", some 5, some 2⟩] = [Row.mk "A" 5 2 10] := by
      norm_num [pipeline, clean, cleanRow, iqrFilter, lowerB, upperB, q1ws, q3ws,
        quantileD, interpAt, partnerSelect, revenueFilter, partnerRevenue,
        List.insertionSort, List.orderedInsert,
        List.filterMap_cons, List.filterMap_nil, List.filter_cons, List.filter_nil,
        List.sum_cons, List.sum_nil]
    rw [hp]
    exact List.mem_singleton.mpr rfl
  exact ⟨hm, c2_amended true 0 [] [⟨"A", some 5, some 2⟩] (Row.mk "A" 5 2 10) hm⟩

/-- C6: membership in the filtered set is exactly membership in the input
set together with the inclusive IQR bounds computed from the input
(pre-filter) set; in particular rows at exactly the lower or upper bound
are kept. -/
theorem c6_iqr_containment (ws : List Row) (r : Row) :
    r ∈ iqrFilter ws ↔ r ∈ ws ∧ lowerB ws ≤ r.price ∧ r.price ≤ upperB ws := by
  simp [iqrFilter, List.mem_filter]

/-- One application of the IQR filter yields a sublist of its input. -/
theorem iqrFilter_sublist (ws : List Row) : List.Sublist (iqrFilter ws) ws :=
  List.filter_sublist ws

/-- C7 (amended): the weighted average price equals total revenue divided by
total quantity whenever the total quantity is positive, and is 0 whenever the
total quantity is zero or negative; the division branch is guarded, so the
computation is total and never raises a division fault. -/
theorem c7_amended (ws : List Row) :
    (0 < totalVol ws → avg_price_weighted ws = totalRev ws / totalVol ws) ∧
    (totalVol ws ≤ 0 → avg_price_weighted ws = 0) := by
  constructor <;> intro h
  · rw [avg_price_weighted, if_pos h]
  · rw [avg_price_weighted, if_neg (not_lt.mpr h)]

/-- C7 (witness): a concrete working set with positive total quantity on
which the amended statement is instantiated. -/
theorem c7_witness :
    0 < totalVol [Row.mk "A" 5 2 10] ∧
    avg_price_weighted [Row.mk "A" 5 2 10] =
      totalRev [Row.mk "A" 5 2 10] / totalVol [Row.mk "A" 5 2 10] :=
  ⟨by norm_num [totalVol], (c7_amended [Row.mk "A" 5 2 10]).1 (by norm_num [totalVol])⟩

/-- C7 (counterexample): the claim states the weighted average always equals
the revenue sum divided by the quantity sum, but for a working set with
negative total quantity (reachable, since the cleaner does not drop
non-positive quantities) the code returns 0 while the quotient is 5. -/
theorem c7_counterexample :
    avg_price_weighted (clean [⟨"A", some 5, some (-3)⟩]) = 0 ∧
    totalRev (clean [⟨"A", some 5, some (-3)⟩]) /
      totalVol (clean [⟨"A", some 5, some (-3)⟩]) = 5 ∧
    (0 : ℚ) ≠ 5 := by
  refine ⟨?_, ?_, by norm_num⟩ <;>
    norm_num [clean, cleanRow, List.filterMap_cons, List.filterMap_nil,
      avg_price_weighted, totalRev, totalVol]

/-- Concrete working set refuting IQR-filter idempotence: prices
10, 10, 10, 10, 11, 12, 14, 20. -/
def ws4 : List Row :=
  [⟨"A", 10, 1, 10⟩, ⟨"A", 10, 1, 10⟩, ⟨"A", 10, 1, 10⟩, ⟨"A", 10, 1, 10⟩,
   ⟨"A", 11, 1, 11⟩, ⟨"A", 12, 1, 12⟩, ⟨"A", 14, 1, 14⟩, ⟨"A", 20, 1, 20⟩]

/-- The first IQR pass on `ws4`: Q1 = 10, Q3 = 12.5, bounds [6.25, 16.25],
so only the price-20 row is removed. -/
def ws4a : List Row :=
  [⟨"A", 10, 1, 10⟩, ⟨"A", 10, 1, 10⟩, ⟨"A", 10, 1, 10⟩, ⟨"A", 10, 1, 10⟩,
   ⟨"A", 11, 1, 11⟩, ⟨"A", 12, 1, 12⟩, ⟨"A", 14, 1, 14⟩]

/-- The second IQR pass on `ws4a`: Q1 = 10, Q3 = 11.5, bounds [7.75, 13.75],
so the price-14 row is also removed. -/
def ws4b : List Row :=
  [⟨"A", 10, 1, 10⟩, ⟨"A", 10, 1, 10⟩, ⟨"A", 10, 1, 10⟩, ⟨"A", 10, 1, 10⟩,
   ⟨"A", 11, 1, 11⟩, ⟨"A", 12, 1, 12⟩]

/-- C4 (counterexample): the IQR filter is not idempotent.  On the working
set with prices 10, 10, 10, 10, 11, 12, 14, 20 the first pass removes only
the price-20 row (bounds [6.25, 16.25]), after which the recomputed bounds
tighten to [7.75, 13.75] and a second pass also removes the price-14 row, so
filter(filter(S)) is strictly smaller than filter(S). -/
theorem c4_counterexample : iqrFilter (iqrFilter ws4) ≠ iqrFilter ws4 := by
  have h1 : iqrFilter ws4 = ws4a := by
    norm_num [ws4, ws4a, iqrFilter, lowerB, upperB, q1ws, q3ws, quantileD, interpAt,
      List.insertionSort, List.orderedInsert, List.filter_cons, List.filter_nil]
  have h2 : iqrFilter ws4a = ws4b := by
    norm_num [ws4a, ws4b, iqrFilter, lowerB, upperB, q1ws, q3ws, quantileD, interpAt,
      List.insertionSort, List.orderedInsert, List.filter_cons, List.filter_nil]
  rw [h1, h2]
  intro hc
  have hlen := congrArg List.length hc
  simp [ws4a, ws4b] at hlen

/-- C4 (amended): each application of the IQR filter yields a sublist of its
input — in particular filter(filter(S)) is always a sublist of filter(S) —
but applying the filter twice may remove strictly more rows than applying it
once, since the second pass recomputes tighter bounds from the already
filtered set. -/
theorem c4_amended (S : List Row) :
    List.Sublist (iqrFilter (iqrFilter S)) (iqrFilter S) :=
  iqrFilter_sublist (iqrFilter S)

/-- C1: the tier attached to every aggregate of the classified table follows
the source ordering of checks — High when the median reaches P75, otherwise
Low when it is at most P25, otherwise Mainstream — and in the degenerate
case P25 = P75 = median the High branch wins because it is evaluated
first. -/
theorem c1_tier_rule (ws : List Row) (a : PartnerAgg) (t : Tier)
    (h : (a, t) ∈ marketTiers ws) :
    (a.median_price ≥ p75ws ws → t = Tier.High) ∧
    (a.median_price < p75ws ws → a.median_price ≤ p25ws ws → t = Tier.Low) ∧
    (a.median_price < p75ws ws → p25ws ws < a.median_price → t = Tier.Mainstream) ∧
    (p25ws ws = p75ws ws → a.median_price = p75ws ws → t = Tier.High) := by
  rcases List.mem_map.mp h with ⟨b, _, hb⟩
  rw [Prod.mk.injEq] at hb
  obtain ⟨hba, hbt⟩ := hb
  subst hba
  subst hbt
  refine ⟨fun h1 => ?_, fun h1 h2 => ?_, fun h1 h2 => ?_, fun h1 h2 => ?_⟩ <;>
    rw [classify_market]
  · rw [if_pos h1]
  · rw [if_neg (not_le.mpr h1), if_pos h2]
  · rw [if_neg (not_le.mpr h1), if_neg (not_le.mpr h2)]
  · rw [if_pos h2.ge]

/-- C1 (witness): on the one-row working set with price 5 the global
quantiles degenerate to P25 = P75 = 5 = median, and the partner is
classified High. -/
theorem c1_witness :
    ((PartnerAgg.mk "A" 5 1 5 1, Tier.High) ∈ marketTiers [Row.mk "A" 5 1 5]) ∧
    p25ws [Row.mk "A" 5 1 5] = p75ws [Row.mk "A" 5 1 5] ∧
    Tier.High = Tier.High := by
  have h25 : p25ws [Row.mk "A" 5 1 5] = 5 := by
    norm_num [p25ws, quantileD, interpAt, List.insertionSort, List.orderedInsert]
  have h75 : p75ws [Row.mk "A" 5 1 5] = 5 := by
    norm_num [p75ws, quantileD, interpAt, List.insertionSort, List.orderedInsert]
  have hm : marketTiers [Row.mk "A" 5 1 5] = [(PartnerAgg.mk "A" 5 1 5 1, Tier.High)] := by
    norm_num [marketTiers, country_stats, groupKeys, aggRow, p25ws, p75ws, classify_market,
      quantileD, interpAt, List.insertionSort, List.orderedInsert,
      List.dedup_cons_of_not_mem, List.filter_cons, List.filter_nil,
      List.sum_cons, List.sum_nil]
  have hmem : (PartnerAgg.mk "A" 5 1 5 1, Tier.High) ∈ marketTiers [Row.mk "A" 5 1 5] := by
    rw [hm]
    exact List.mem_singleton.mpr rfl
  refine ⟨hmem, by rw [h25, h75], ?_⟩
  exact (c1_tier_rule _ _ _ hmem).2.2.2 (by rw [h25, h75]) (by simp [h75])

/-- Scenario A input: X(100, 10), X(120, 5), Y(50, 100). -/
def rawA : List RawRecord :=
  [⟨"X", some 100, some 10⟩, ⟨"X", some 120, some 5⟩, ⟨"Y", some 50, some 100⟩]

/-- C3 (counterexample): on Scenario A the aggregate of partner X has
total revenue 100*10 + 120*5 = 1600, not the 2600 stated by the claim, so
the claimed aggregate table is not the one the code produces. -/
theorem c3_counterexample :
    country_stats (pipeline false 0 [] rawA) ≠
      [PartnerAgg.mk "X" 110 15 2600 2, PartnerAgg.mk "Y" 50 100 5000 1] := by
  have h : country_stats (pipeline false 0 [] rawA) =
      [PartnerAgg.mk "X" 110 15 1600 2, PartnerAgg.mk "Y" 50 100 5000 1] := by
    norm_num +decide [rawA, pipeline, clean, cleanRow, partnerSelect, revenueFilter,
      partnerRevenue, country_stats, groupKeys, aggRow, quantileD, interpAt,
      List.insertionSort, List.orderedInsert, List.dedup_cons_of_mem,
      List.dedup_cons_of_not_mem, List.filterMap_cons, List.filterMap_nil,
      List.filter_cons, List.filter_nil, List.sum_cons, List.sum_nil]
  rw [h]
  intro hc
  rw [List.cons.injEq, PartnerAgg.mk.injEq] at hc
  exact absurd hc.1.2.2.2.1 (by norm_num)

/-- C3 (amended): on Scenario A, with the outlier filter disabled and
revenue threshold 0, the aggregator produces exactly
X(median 110, quantity 15, revenue 1600, count 2) and
Y(median 50, quantity 100, revenue 5000, count 1). -/
theorem c3_amended :
    country_stats (pipeline false 0 [] rawA) =
      [PartnerAgg.mk "X" 110 15 1600 2, PartnerAgg.mk "Y" 50 100 5000 1] := by
  norm_num +decide [rawA, pipeline, clean, cleanRow, partnerSelect, revenueFilter,
    partnerRevenue, country_stats, groupKeys, aggRow, quantileD, interpAt,
    List.insertionSort, List.orderedInsert, List.dedup_cons_of_mem,
    List.dedup_cons_of_not_mem, List.filterMap_cons, List.filterMap_nil,
    List.filter_cons, List.filter_nil, List.sum_cons, List.sum_nil]

/-- Scenario E input in first-seen order B(10), A(10), C(30). -/
def rawBAC : List RawRecord :=
  [⟨"B", some 10, some 1⟩, ⟨"A", some 10, some 1⟩, ⟨"C", some 30, some 1⟩]

/-- Scenario E input in first-seen order A(10), B(10), C(30). -/
def rawABC : List RawRecord :=
  [⟨"A", some 10, some 1⟩, ⟨"B", some 10, some 1⟩, ⟨"C", some 30, some 1⟩]

/-- C5 (counterexample): with first-seen order B(10), A(10), C(30) the
claimed tie-break by first-seen insertion order would rank B before A, but
the code groups partners in ascending name order before the stable sort, so
the top-2 ranking is [C, A], not [C, B]. -/
theorem c5_counterexample :
    (top_df 2 (pipeline false 0 [] rawBAC)).map (·.partner) ≠ ["C", "B"] := by
  have h : (top_df 2 (pipeline false 0 [] rawBAC)).map (·.partner) = ["C", "A"] := by
    norm_num +decide [rawBAC, pipeline, clean, cleanRow, partnerSelect, revenueFilter,
      partnerRevenue, country_stats, groupKeys, aggRow, quantileD, interpAt,
      top_df, sortDesc,
      List.insertionSort, List.orderedInsert, List.dedup_cons_of_mem,
      List.dedup_cons_of_not_mem, List.filterMap_cons, List.filterMap_nil,
      List.filter_cons, List.filter_nil, List.sum_cons, List.sum_nil]
  rw [h]
  decide

instance sortDescTotal : IsTotal PartnerAgg (fun a b => b.median_price ≤ a.median_price) :=
  ⟨fun a b => le_total b.median_price a.median_price⟩

instance sortDescTrans : IsTrans PartnerAgg (fun a b => b.median_price ≤ a.median_price) :=
  ⟨fun _ _ _ hab hbc => le_trans hbc hab⟩

/-- C5 (amended): the ranking sorts the aggregate table in descending order
of median price; ties are broken by the order of the aggregate table itself,
which is ascending partner-name order (the groupby key order), not first-seen
order.  On Scenario E with first-seen order A(10), B(10), C(30) the full
descending sort is [C, A, B] and the top-2 ranking is [C, A], as the name
order and the first-seen order coincide there. -/
theorem c5_amended :
    (∀ stats : List PartnerAgg,
      List.Sorted (fun a b => b.median_price ≤ a.median_price) (sortDesc stats)) ∧
    (sortDesc (country_stats (pipeline false 0 [] rawABC))).map (·.partner) = ["C", "A", "B"] ∧
    (top_df 2 (pipeline false 0 [] rawABC)).map (·.partner) = ["C", "A"] := by
  refine ⟨fun stats => List.sorted_insertionSort _ _, ?_, ?_⟩ <;>
    norm_num +decide [rawABC, pipeline, clean, cleanRow, partnerSelect, revenueFilter,
      partnerRevenue, country_stats, groupKeys, aggRow, quantileD, interpAt,
      top_df, sortDesc,
      List.insertionSort, List.orderedInsert, List.dedup_cons_of_mem,
      List.dedup_cons_of_not_mem, List.filterMap_cons, List.filterMap_nil,
      List.filter_cons, List.filter_nil, List.sum_cons, List.sum_nil]

/-- C8 (counterexample): the stripped column name `Price` (from a raw column
with surrounding whitespace) maps to `单价`, but a column literally named
`price` (lowercase) is not in the alias set of the code and is left
unmapped, so the six-alias table of the claim — which includes lowercase
`price` — does not match the code. -/
theorem c8_counterexample :
    normalizeCol " Price " = "单价" ∧ normalizeCol "price" ≠ "单价" := by
  constructor <;> decide

/-- The three alias sets of the normalizer are pairwise disjoint. -/
theorem aliasSetsDisjoint :
    (∀ s ∈ qtyAliases, s ∉ priceAliases) ∧
    (∀ s ∈ partnerAliases, s ∉ priceAliases) ∧
    (∀ s ∈ partnerAliases, s ∉ qtyAliases) := by
  decide

/-- C8 (amended): the normalizer trims whitespace from a column name and
maps it by case-sensitive exact match; every column trimming to a member of
the five-element price alias set of the code maps to `单价` (unit price), and
analogously for the quantity and partner alias sets, while any other column
keeps its trimmed name.  Lowercase `price` is not an alias. -/
theorem c8_amended (c : String) :
    (stripName c ∈ priceAliases → normalizeCol c = "单价") ∧
    (stripName c ∈ qtyAliases → normalizeCol c = "销量(吨)") ∧
    (stripName c ∈ partnerAliases → normalizeCol c = "国家") ∧
    (stripName c ∉ priceAliases → stripName c ∉ qtyAliases → stripName c ∉ partnerAliases →
      normalizeCol c = stripName c) := by
  refine ⟨fun h => ?_, fun h => ?_, fun h => ?_, fun h1 h2 h3 => ?_⟩
  · rw [normalizeCol, if_pos h]
  · rw [normalizeCol, if_neg (aliasSetsDisjoint.1 _ h), if_pos h]
  · rw [normalizeCol, if_neg (aliasSetsDisjoint.2.1 _ h),
      if_neg (aliasSetsDisjoint.2.2 _ h), if_pos h]
  · rw [normalizeCol, if_neg h1, if_neg h2, if_neg h3]

/-- C8 (witness): the Scenario D column with surrounding whitespace strips
to a price alias and normalizes to `单价`. -/
theorem c8_witness :
    stripName " Price " ∈ priceAliases ∧ normalizeCol " Price " = "单价" :=
  ⟨by decide, (c8_amended " Price ").1 (by decide)⟩

/-- C9 (counterexample): on the empty working set the dashboard still
executes the aggregation, quantile, classification and weighted-average
stages — the first stage of the trace is the aggregator, and the aggregate
table of the empty set is computed (it is empty) — and only afterwards does
the emptiness check run; the claim that the check is raised before the
aggregator runs is false on the code. -/
theorem c9_counterexample :
    dashboardTrace [] =
      [Stage.aggregate, Stage.quantiles, Stage.classifyTiers, Stage.weightedAvg,
        Stage.emptyCheck] ∧
    (dashboardTrace []).head? = some Stage.aggregate ∧
    country_stats ([] : List Row) = [] := by
  refine ⟨?_, ?_, ?_⟩ <;>
    simp [dashboardTrace, country_stats, groupKeys, List.insertionSort]

/-- C9 (amended): whenever the working set is empty, the emptiness check —
which runs after the aggregation, quantile, classification and
weighted-average stages, all of which execute harmlessly on the empty set —
raises the warning and ends the run, so the statistic panels, the charts and
the download table are all skipped; the aggregate table computed for the
empty set is empty. -/
theorem c9_amended (ws : List Row) (h : ws.length = 0) :
    dashboardTrace ws =
      [Stage.aggregate, Stage.quantiles, Stage.classifyTiers, Stage.weightedAvg,
        Stage.emptyCheck] ∧
    Stage.panels ∉ dashboardTrace ws ∧ Stage.charts ∉ dashboardTrace ws ∧
    Stage.download ∉ dashboardTrace ws ∧ country_stats ws = [] := by
  rw [List.length_eq_zero] at h
  subst h
  refine ⟨?_, ?_, ?_, ?_, ?_⟩ <;>
    simp [dashboardTrace, country_stats, groupKeys, List.insertionSort]

/-- C9 (witness): the amended statement instantiated on the empty working
set. -/
theorem c9_witness :
    ([] : List Row).length = 0 ∧ Stage.panels ∉ dashboardTrace ([] : List Row) :=
  ⟨rfl, (c9_amended [] rfl).2.1⟩

/-- C10: for every working set the aggregate table is ordered ascending by
partner name (the groupby sorts its keys), and on a concrete input whose
first-seen partner order is B, A the aggregate table nevertheless lists A
before B — so the order is not the first-seen order. -/
theorem c10_agg_order :
    (∀ ws : List Row,
      List.Sorted (fun a b : String => a ≤ b) ((country_stats ws).map (·.partner))) ∧
    (country_stats (clean [⟨"B", some 1, some 1⟩, ⟨"A", some 1, some 1⟩])).map (·.partner)
      = ["A", "B"] := by
  constructor
  · intro ws
    have hk : (country_stats ws).map (·.partner) = groupKeys ws := by
      rw [country_stats, List.map_map]
      have hfun : ((fun x : PartnerAgg => x.partner) ∘ aggRow ws) = fun p : String => p := by
        funext p
        rfl
      rw [hfun, List.map_id']
    rw [hk]
    exact List.sorted_insertionSort _ _
  · norm_num +decide [clean, cleanRow, country_stats, groupKeys, aggRow,
      quantileD, interpAt,
      List.insertionSort, List.orderedInsert, List.dedup_cons_of_mem,
      List.dedup_cons_of_not_mem, List.filterMap_cons, List.filterMap_nil,
      List.filter_cons, List.filter_nil, List.sum_cons, List.sum_nil]
